import Mathlib

/-!
Shallow embedding of the event-management application (Django project
`event_management`, app `events`): the account lifecycle, the role (group)
logic, events, RSVPs and the two e-mail triggers, translated from
`src/events/views.py`, `src/events/models.py`, `src/events/forms.py` and
`src/events/signals.py`.  The relational datastore is modelled as explicit
lists of rows; Django's many-to-many `add` is the datastore-level guarded
insert (`m2mAdd`).
-/

deriving instance DecidableEq for Except

namespace EventApp

/-- Python's `str.lower()` restricted to the ASCII case handled by
`Char.toLower`. -/
def pyLower (s : String) : String :=
  String.mk (s.data.map Char.toLower)

/-- Python's `str.capitalize()`: first character upper-cased, the rest
lower-cased (ASCII). -/
def pyCapitalize (s : String) : String :=
  match s.data with
  | [] => ""
  | c :: cs => String.mk (Char.toUpper c :: cs.map Char.toLower)

/-- Characters kept by `django.utils.text.slugify`'s first rewrite step,
which deletes everything matching `[^\w\s-]` (so it keeps alphanumerics,
underscore, whitespace and hyphen). -/
def slugKeep (c : Char) : Bool :=
  c.isAlphanum || c = '_' || c.isWhitespace || c = '-'

/-- Characters collapsed by `slugify`'s second rewrite step `[-\s]+` → `-`. -/
def dashSpace (c : Char) : Bool :=
  c.isWhitespace || c = '-'

/-- Replace every maximal run of whitespace/hyphen characters by a single
hyphen (the regex substitution `re.sub(r"[-\s]+", "-", value)`).  The
boolean argument records whether the previous kept character was part of
such a run. -/
def collapseDashAux : Bool → List Char → List Char
  | _, [] => []
  | prev, c :: cs =>
    if dashSpace c then
      if prev then collapseDashAux true cs else '-' :: collapseDashAux true cs
    else
      c :: collapseDashAux false cs

/-- Characters stripped from both ends by `slugify`'s final `.strip("-_")`. -/
def stripChar (c : Char) : Bool :=
  c = '-' || c = '_'

/-- `django.utils.text.slugify` (ASCII fragment): lower-case, drop characters
outside `[\w\s-]`, collapse `[-\s]+` runs to a single `-`, strip `-` and `_`
from both ends. -/
def slugify (s : String) : String :=
  let kept := (s.data.map Char.toLower).filter slugKeep
  let collapsed := collapseDashAux false kept
  String.mk (((collapsed.dropWhile stripChar).reverse.dropWhile stripChar).reverse)

/-- Datastore-level semantics of adding a row to a many-to-many join table:
inserting an already-present member is a no-op (Django's
`ManyRelatedManager.add` only inserts the missing ids). -/
def m2mAdd {α : Type} [DecidableEq α] (l : List α) (a : α) : List α :=
  if a ∈ l then l else l ++ [a]

/-- One row of the user table (`events.models.CustomUser`, restricted to the
fields the verified operations read or write).  `lastLogin` is an abstract
timestamp; `password` stands for the stored password hash. -/
structure SysUser where
  pk : Nat
  username : String
  email : String
  password : String
  lastLogin : Option Nat
  isSuperuser : Bool
  isActive : Bool
  groups : List String
deriving DecidableEq

/-- The value signed into an activation token by
`django.contrib.auth.tokens.default_token_generator`
(`PasswordResetTokenGenerator._make_hash_value`): the user's pk, password
hash, last-login timestamp and e-mail address.  The HMAC is abstracted as
the (injective) tuple itself, and the timestamp/expiry window is not
modelled (all tokens are taken to be within their validity window).  Note
that the activation flag `is_active` is not part of the hash value. -/
structure Token where
  pk : Nat
  password : String
  lastLogin : Option Nat
  email : String
deriving DecidableEq

/-- `default_token_generator.make_token(user)`. -/
def makeToken (u : SysUser) : Token :=
  { pk := u.pk, password := u.password, lastLogin := u.lastLogin, email := u.email }

/-- `default_token_generator.check_token(user, token)`: the token must match
the hash value recomputed from the user's current state. -/
def checkToken (u : SysUser) (t : Token) : Bool :=
  decide (t = makeToken u)

/-- One row of the event table (`events.models.Event`).  `rsvps` is the
user↔event join table restricted to this event; `organizer` is the nullable
owning-user foreign key; `date` is an abstract timestamp. -/
structure EventRec where
  pk : Nat
  title : String
  description : String
  date : Nat
  category : String
  image : String
  slug : String
  organizer : Option Nat
  rsvps : List Nat
deriving DecidableEq

/-- The datastore: the user rows, the event rows and the group table
(`django.contrib.auth.models.Group`, keyed by name). -/
structure SysState where
  users : List SysUser
  events : List EventRec
  groupTable : List String
deriving DecidableEq

/-- `CustomUser.objects.get(pk=...)` / `get_object_or_404(CustomUser, ...)`. -/
def findUser (s : SysState) (pk : Nat) : Option SysUser :=
  s.users.find? (fun u => decide (u.pk = pk))

/-- Write back a mutated user row (`user.save()` after field updates). -/
def updateUser (s : SysState) (pk : Nat) (f : SysUser → SysUser) : SysState :=
  { s with users := s.users.map (fun u => if u.pk = pk then f u else u) }

/-- `get_object_or_404(Event, pk=...)`. -/
def findEvent (s : SysState) (pk : Nat) : Option EventRec :=
  s.events.find? (fun e => decide (e.pk = pk))

/-- Write back a mutated event row. -/
def updateEvent (s : SysState) (pk : Nat) (f : EventRec → EventRec) : SysState :=
  { s with events := s.events.map (fun e => if e.pk = pk then f e else e) }

/-- `views.is_admin`: superuser or member of the `Admin` group.  (The
`is_authenticated` conjunct of the source is handled at call sites: an
anonymous request carries no user row.) -/
def is_admin (u : SysUser) : Bool :=
  u.isSuperuser || decide ("Admin" ∈ u.groups)

/-- `views.is_organizer`: member of the `Organizer` group. -/
def is_organizer (u : SysUser) : Bool :=
  decide ("Organizer" ∈ u.groups)

/-- `views.is_participant`: member of the `Participant` group. -/
def is_participant (u : SysUser) : Bool :=
  decide ("Participant" ∈ u.groups)

/-- `django.contrib.auth.authenticate`: credential lookup against the user
table (password hashing abstracted as equality of the stored hash field). -/
def authenticate (s : SysState) (username password : String) : Option SysUser :=
  s.users.find? (fun u => decide (u.username = username ∧ u.password = password))

/-- Redirect target returned by `views.login_view`. -/
inductive LoginOutcome
  | adminDash
  | organizerDash
  | participantDash
  | failed
deriving DecidableEq

/-- `views.login_view` (POST branch).  On a successful credential check of
an active user: a superuser has their groups cleared and is placed in the
`Admin` group; any other user with neither the `Organizer` nor the
`Participant` group is added to `Participant`; then `django.contrib.auth.login`
stores the session and updates `last_login` to the current time `now`.
The redirect target is recomputed from the updated user row, as the source
re-queries the groups after the add. -/
def login_view (s : SysState) (username password : String) (now : Nat) :
    SysState × LoginOutcome :=
  match authenticate s username password with
  | none => (s, LoginOutcome.failed)
  | some u =>
    if u.isActive then
      if u.isSuperuser then
        let s1 : SysState := { s with groupTable := m2mAdd s.groupTable "Admin" }
        let s2 := updateUser s1 u.pk
          (fun v => { v with groups := m2mAdd ([] : List String) "Admin", lastLogin := some now })
        (s2, LoginOutcome.adminDash)
      else
        let needsDefault := !(is_organizer u || is_participant u)
        let s1 : SysState :=
          if needsDefault then
            updateUser { s with groupTable := m2mAdd s.groupTable "Participant" } u.pk
              (fun v => { v with groups := m2mAdd v.groups "Participant" })
          else s
        let s2 := updateUser s1 u.pk (fun v => { v with lastLogin := some now })
        let u1 := (findUser s2 u.pk).getD u
        (s2,
          if is_admin u1 then LoginOutcome.adminDash
          else if is_organizer u1 then LoginOutcome.organizerDash
          else LoginOutcome.participantDash)
    else (s, LoginOutcome.failed)

/-- `urlsafe_base64_encode(force_bytes(user.pk))`, abstracted as the decimal
rendering of the pk (the base64 layer is a bijection on the encodings and
carries no logic). -/
def uidEncode (pk : Nat) : String :=
  toString pk

/-- One decimal digit, or `none`. -/
def decDigit? (c : Char) : Option Nat :=
  if c.isDigit then some (c.toNat - '0'.toNat) else none

/-- Parse a decimal digit string (helper for `uidDecode`). -/
def decodeDigits : List Char → Nat → Option Nat
  | [], acc => some acc
  | c :: cs, acc =>
    match decDigit? c with
    | some d => decodeDigits cs (acc * 10 + d)
    | none => none

/-- Decoding of the `uidb64` path component inside `views.activate_account`:
`force_str(urlsafe_base64_decode(uidb64))` followed by the integer coercion
of the pk lookup; `none` models the `TypeError`/`ValueError`/`OverflowError`
branch (any input that is not a decimal pk rendering). -/
def uidDecode (s : String) : Option Nat :=
  match s.data with
  | [] => none
  | c :: cs => decodeDigits (c :: cs) 0

/-- Result of `views.activate_account`: either the activated user's pk, or
the `activation_invalid.html` page. -/
inductive ActivationResult
  | success (pk : Nat)
  | invalid
deriving DecidableEq

/-- `views.activate_account`: decode the uid, look the user up, check the
token; on success set `is_active = True` and save; on any failure render the
invalid-activation page without touching the datastore. -/
def activate_account (s : SysState) (uidb64 : String) (token : Token) :
    SysState × ActivationResult :=
  match uidDecode uidb64 with
  | none => (s, ActivationResult.invalid)
  | some pk =>
    match findUser s pk with
    | none => (s, ActivationResult.invalid)
    | some u =>
      if checkToken u token then
        (updateUser s pk (fun v => { v with isActive := true }), ActivationResult.success pk)
      else
        (s, ActivationResult.invalid)

/-- Outcome of `views.change_user_role`; every non-`ok` constructor is one of
the source's `messages.error` + redirect branches (or the 404 raised by
`get_object_or_404`). -/
inductive RoleChangeResult
  | ok
  | errNotAdmin
  | errNotFound
  | errInvalidRole
  | errSelfChange
deriving DecidableEq

/-- The admin check `is_admin(request.user)` performed on the acting user's
pk: an anonymous or vanished actor has no row and fails the check. -/
def actorAdmin (s : SysState) (actorPk : Nat) : Bool :=
  match findUser s actorPk with
  | some a => is_admin a
  | none => false

/-- `views.change_user_role(request, user_id, role)`: requires the acting
user to be an admin, the target to exist, `role.lower()` to be one of
`organizer`/`participant`, and the target to differ from the actor; then it
clears the target's groups, `get_or_create`s the group named
`role.capitalize()` and adds the target to it.  `actorPk` is the pk of
`request.user`. -/
def change_user_role (s : SysState) (actorPk : Nat) (userId : Nat) (role : String) :
    SysState × RoleChangeResult :=
  if !actorAdmin s actorPk then (s, RoleChangeResult.errNotAdmin)
  else
    match findUser s userId with
    | none => (s, RoleChangeResult.errNotFound)
    | some u =>
      if pyLower role ∉ ["organizer", "participant"] then
        (s, RoleChangeResult.errInvalidRole)
      else if u.pk = actorPk then
        (s, RoleChangeResult.errSelfChange)
      else
        let groupName := pyCapitalize role
        let s1 : SysState := { s with groupTable := m2mAdd s.groupTable groupName }
        (updateUser s1 userId (fun v => { v with groups := [groupName] }), RoleChangeResult.ok)

/-- An RSVP-confirmation e-mail as assembled by
`signals.send_rsvp_confirmation_email`. -/
structure RsvpEmail where
  recipient : String
  subject : String
  body : String
deriving DecidableEq

/-- The message built for one newly-added RSVP member (`strftime` on the
event timestamp abstracted as its decimal rendering). -/
def rsvpEmailFor (ev : EventRec) (u : SysUser) : RsvpEmail :=
  { recipient := u.email
  , subject := "RSVP Confirmation for " ++ ev.title
  , body := "Hi " ++ u.username ++ ",\n\nThank you for RSVPing to the event '"
      ++ ev.title ++ "'.\nThe event is scheduled for " ++ toString ev.date
      ++ ".\n\nWe look forward to your participation!" }

/-- The `m2m_changed post_add` receiver `signals.send_rsvp_confirmation_email`:
one e-mail per pk in the signal's `pk_set`, silently skipping pks whose user
row cannot be found (`User.DoesNotExist` → `continue`). -/
def rsvpSignalEmails (s : SysState) (ev : EventRec) (pkSet : List Nat) : List RsvpEmail :=
  pkSet.filterMap (fun uid =>
    match findUser s uid with
    | some u => some (rsvpEmailFor ev u)
    | none => none)

/-- `views.rsvp_event`: look the event and the requesting user up, add the
user to the event's RSVP set; Django sends `m2m_changed post_add` with
`pk_set` equal to the ids actually inserted (an already-present member is
excluded), and the receiver mails exactly those.  Returns the new state and
the dispatched confirmation e-mails. -/
def rsvp_event (s : SysState) (requesterPk : Nat) (eventPk : Nat) :
    SysState × List RsvpEmail :=
  match findEvent s eventPk with
  | none => (s, [])
  | some ev =>
    match findUser s requesterPk with
    | none => (s, [])
    | some u =>
      let newIds : List Nat := if u.pk ∈ ev.rsvps then [] else [u.pk]
      let s1 := updateEvent s eventPk (fun e => { e with rsvps := m2mAdd e.rsvps u.pk })
      (s1, rsvpSignalEmails s1 ev newIds)

/-- An activation link as embedded in an activation e-mail: the host part,
the encoded uid and the token.  The path shape
`/activate/<uidb64>/<token>/` is shared by both constructions. -/
structure ActivationLink where
  domain : String
  uid : String
  token : Token
deriving DecidableEq

/-- An activation e-mail (recipient and embedded link). -/
structure ActivationEmail where
  recipient : String
  link : ActivationLink
deriving DecidableEq

/-- Auto-increment primary key for a new user row. -/
def freshPk (s : SysState) : Nat :=
  (s.users.map SysUser.pk).foldr max 0 + 1

/-- The e-mail sent by the `post_save` receiver `signals.send_activation_email`
when a user row is created inactive: its link hard-codes the host
`localhost:8000`. -/
def signalActivationEmail (u : SysUser) : ActivationEmail :=
  { recipient := u.email
  , link := { domain := "localhost:8000", uid := uidEncode u.pk, token := makeToken u } }

/-- The e-mail sent explicitly by `views.SignUpView.form_valid`: its link is
built with `request.build_absolute_uri`, so its host is the request's site
domain. -/
def handlerActivationEmail (domain : String) (u : SysUser) : ActivationEmail :=
  { recipient := u.email
  , link := { domain := domain, uid := uidEncode u.pk, token := makeToken u } }

/-- `views.SignUpView.form_valid` together with the `SignUpForm` uniqueness
validation: the `ModelForm` enforces uniqueness only on the username
(`AbstractUser.username` is `unique=True`, while `email` is not unique and
`SignUpForm` adds no check of its own), so a taken username rejects the form
and nothing happens — a duplicate e-mail address does not.  Otherwise a
fresh user row is created with `is_active = False` and saved — the
`post_save` signal fires the first activation e-mail — and then the handler
sends the second one explicitly.  Returns the new state and the dispatched
activation e-mails in order. -/
def signUpView (s : SysState) (username email password domain : String) :
    SysState × List ActivationEmail :=
  if s.users.any (fun u => decide (u.username = username)) then
    (s, [])
  else
    let u : SysUser :=
      { pk := freshPk s, username := username, email := email, password := password
      , lastLogin := none, isSuperuser := false, isActive := false, groups := [] }
    ({ s with users := s.users ++ [u] }, [signalActivationEmail u, handlerActivationEmail domain u])

/-- The form data accepted by `forms.EventForm` (fields `title`,
`description`, `date`, `category`, `image` — and nothing else). -/
structure EventFormData where
  title : String
  description : String
  date : Nat
  category : String
  image : String
deriving DecidableEq

/-- `Event.save` on a new row, composed with the datastore's `unique=True`
constraint on `slug`: an empty slug is derived from the title via `slugify`,
and inserting a row whose slug collides with an existing one raises
`IntegrityError`. -/
def eventSave (db : List EventRec) (e : EventRec) : Except String (List EventRec) :=
  let e1 := if e.slug = "" then { e with slug := slugify e.title } else e
  if db.any (fun x => decide (x.slug = e1.slug)) then Except.error "IntegrityError"
  else Except.ok (db ++ [e1])

/-- Auto-increment primary key for a new event row. -/
def freshEventPk (db : List EventRec) : Nat :=
  (db.map EventRec.pk).foldr max 0 + 1

/-- The event row built from a submitted `EventForm`: the form exposes no
`organizer` and no `slug` field, so the row is created with
`organizer = NULL`, an empty slug and an empty RSVP set. -/
def eventFromForm (pk : Nat) (f : EventFormData) : EventRec :=
  { pk := pk, title := f.title, description := f.description, date := f.date
  , category := f.category, image := f.image, slug := "", organizer := none, rsvps := [] }

/-- `views.EventCreateView`: save the row built from the form. -/
def eventCreateView (db : List EventRec) (f : EventFormData) : Except String (List EventRec) :=
  eventSave db (eventFromForm (freshEventPk db) f)

/-- State transition of `views.EventCreateView` on the whole datastore: an
`IntegrityError` surfaces as an unhandled server fault, leaving the
datastore unchanged. -/
def event_create_view (s : SysState) (f : EventFormData) : SysState :=
  match eventCreateView s.events f with
  | Except.ok evs => { s with events := evs }
  | Except.error _ => s

/-- Deleting a user row and its relational fallout: events whose `organizer`
foreign key points at the user are cascade-deleted
(`on_delete=models.CASCADE`), and the user's rows in the RSVP join table are
removed. -/
def deleteUserCascade (s : SysState) (pk : Nat) : SysState :=
  { s with
    users := s.users.filter (fun u => decide (u.pk ≠ pk))
  , events := (s.events.filter (fun e => decide (e.organizer ≠ some pk))).map
      (fun e => { e with rsvps := e.rsvps.filter (fun r => decide (r ≠ pk)) }) }

/-- The `test_func` of `views.UserDeleteView`: the acting user must be an
admin and the target must be a different, existing user. -/
def deleteAllowed (s : SysState) (actorPk targetPk : Nat) : Bool :=
  match findUser s actorPk, findUser s targetPk with
  | some a, some t => is_admin a && decide (t.pk ≠ actorPk)
  | _, _ => false

/-- `views.UserDeleteView`: the deletion runs only when its `test_func`
passes. -/
def user_delete_view (s : SysState) (actorPk : Nat) (targetPk : Nat) : SysState :=
  if deleteAllowed s actorPk targetPk then deleteUserCascade s targetPk else s

/-- The state-mutating operations the application itself can perform, with
their request parameters. -/
inductive Op
  | opSignUp (username email password domain : String)
  | opLogin (username password : String) (now : Nat)
  | opChangeRole (actorPk userId : Nat) (role : String)
  | opActivate (uidb64 : String) (token : Token)
  | opRsvp (requesterPk eventPk : Nat)
  | opCreateEvent (f : EventFormData)
  | opDeleteUser (actorPk targetPk : Nat)
deriving DecidableEq

/-- The datastore transition of one operation. -/
def applyOp (s : SysState) : Op → SysState
  | Op.opSignUp un em pw dom => (signUpView s un em pw dom).1
  | Op.opLogin un pw now => (login_view s un pw now).1
  | Op.opChangeRole a t r => (change_user_role s a t r).1
  | Op.opActivate uid tok => (activate_account s uid tok).1
  | Op.opRsvp u e => (rsvp_event s u e).1
  | Op.opCreateEvent f => event_create_view s f
  | Op.opDeleteUser a t => user_delete_view s a t

/-- A whole request history. -/
def applyOps (s : SysState) (ops : List Op) : SysState :=
  ops.foldl applyOp s

/-- The three canonical role groups. -/
def canonicalRoles : List String :=
  ["Admin", "Organizer", "Participant"]

/-- How many of the three canonical role groups a group list contains. -/
def roleGroupCount (gs : List String) : Nat :=
  (canonicalRoles.filter (fun r => decide (r ∈ gs))).length

/-- Per-user invariant maintained by the application's own operations: the
user belongs to at most one canonical role group, and only a superuser ever
belongs to the `Admin` group. -/
def sysInvUser (u : SysUser) : Prop :=
  roleGroupCount u.groups ≤ 1 ∧ (u.isSuperuser = false → "Admin" ∉ u.groups)

/-- Datastore invariant: primary keys are unique and every user row
satisfies `sysInvUser`.  It holds in particular for any state whose users
all have empty group lists (the state in which both registration and
`createsuperuser` leave a user). -/
def SysInv (s : SysState) : Prop :=
  (s.users.map SysUser.pk).Nodup ∧ ∀ u ∈ s.users, sysInvUser u

instance (u : SysUser) : Decidable (sysInvUser u) :=
  inferInstanceAs
    (Decidable (roleGroupCount u.groups ≤ 1 ∧ (u.isSuperuser = false → "Admin" ∉ u.groups)))

instance (s : SysState) : Decidable (SysInv s) :=
  inferInstanceAs
    (Decidable ((s.users.map SysUser.pk).Nodup ∧ ∀ u ∈ s.users, sysInvUser u))

/-- A superuser row, as `createsuperuser` leaves it (no groups yet). -/
def sampleAdmin : SysUser :=
  { pk := 1, username := "root", email := "root@example.com", password := "rootpw"
  , lastLogin := none, isSuperuser := true, isActive := true, groups := [] }

/-- An active organizer. -/
def sampleOrganizer : SysUser :=
  { pk := 2, username := "olly", email := "olly@example.com", password := "ollypw"
  , lastLogin := none, isSuperuser := false, isActive := true, groups := ["Organizer"] }

/-- A freshly registered, not yet activated user. -/
def sampleUserA : SysUser :=
  { pk := 3, username := "alice", email := "alice@example.com", password := "alicepw"
  , lastLogin := none, isSuperuser := false, isActive := false, groups := [] }

/-- An active user holding no role group yet. -/
def samplePlain : SysUser :=
  { pk := 4, username := "carol", email := "carol@example.com", password := "carolpw"
  , lastLogin := none, isSuperuser := false, isActive := true, groups := [] }

/-- A sample event row. -/
def sampleEvent : EventRec :=
  { pk := 1, title := "Tech Meetup", description := "Talks", date := 100
  , category := "tech", image := "default_event.jpg", slug := "tech-meetup"
  , organizer := none, rsvps := [] }

/-- A sample datastore with the rows above. -/
def sampleState : SysState :=
  { users := [sampleAdmin, sampleOrganizer, sampleUserA, samplePlain]
  , events := [sampleEvent], groupTable := ["Organizer"] }

/-- The datastore right after `sampleUserA` registered. -/
def regState : SysState :=
  { users := [sampleUserA], events := [], groupTable := [] }

/-- The activation token issued to `sampleUserA` at registration time. -/
def tokA : Token := makeToken sampleUserA

/-- A sample request history. -/
def demoOps : List Op :=
  [ Op.opLogin "root" "rootpw" 10
  , Op.opLogin "carol" "carolpw" 11
  , Op.opChangeRole 1 4 "orGANIZER"
  , Op.opChangeRole 1 2 "participant"
  , Op.opRsvp 4 1
  , Op.opSignUp "dave" "dave@example.com" "davepw" "example.com" ]

theorem string_length_mk (l : List Char) : (String.mk l).length = l.length := rfl

theorem pyLower_length (s : String) : (pyLower s).length = s.length := by
  cases s with
  | mk data => simp [pyLower, string_length_mk]

theorem pyCapitalize_length (s : String) : (pyCapitalize s).length = s.length := by
  cases s with
  | mk data =>
    cases data with
    | nil => rfl
    | cons c cs => simp [pyCapitalize, string_length_mk]

/-- Any case variant of `organizer` or `participant` capitalizes to a group
name other than `Admin` (the lengths already differ). -/
theorem validRole_ne_admin (role : String)
    (h : pyLower role ∈ ["organizer", "participant"]) : pyCapitalize role ≠ "Admin" := by
  intro hc
  have hlen : role.length = 9 ∨ role.length = 11 := by
    simp only [List.mem_cons, List.mem_singleton, List.not_mem_nil, or_false] at h
    rcases h with h | h
    · left
      rw [← pyLower_length, h]
      decide
    · right
      rw [← pyLower_length, h]
      decide
  have h5 : role.length = 5 := by
    rw [← pyCapitalize_length, hc]
    decide
  omega

theorem findUser_pk (s : SysState) (pk : Nat) (u : SysUser)
    (h : findUser s pk = some u) : u.pk = pk := by
  unfold findUser at h
  have := List.find?_some h
  simpa using this

theorem findUser_mem (s : SysState) (pk : Nat) (u : SysUser)
    (h : findUser s pk = some u) : u ∈ s.users := by
  unfold findUser at h
  exact List.mem_of_find?_eq_some h

theorem findUser_updateUser (s : SysState) (pk' pk : Nat) (f : SysUser → SysUser)
    (hf : ∀ v, (f v).pk = v.pk) :
    findUser (updateUser s pk' f) pk =
      Option.map (fun v => if v.pk = pk' then f v else v) (findUser s pk) := by
  unfold findUser updateUser
  have hp : ((fun u : SysUser => decide (u.pk = pk)) ∘ fun v => if v.pk = pk' then f v else v)
      = fun u : SysUser => decide (u.pk = pk) := by
    funext v
    by_cases h : v.pk = pk' <;> simp [Function.comp, h, hf]
  rw [List.find?_map, hp]

theorem findEvent_updateEvent (s : SysState) (pk' pk : Nat) (f : EventRec → EventRec)
    (hf : ∀ v, (f v).pk = v.pk) :
    findEvent (updateEvent s pk' f) pk =
      Option.map (fun v => if v.pk = pk' then f v else v) (findEvent s pk) := by
  unfold findEvent updateEvent
  have hp : ((fun e : EventRec => decide (e.pk = pk)) ∘ fun v => if v.pk = pk' then f v else v)
      = fun e : EventRec => decide (e.pk = pk) := by
    funext v
    by_cases h : v.pk = pk' <;> simp [Function.comp, h, hf]
  rw [List.find?_map, hp]

theorem authenticate_updateUser (s : SysState) (pk' : Nat) (f : SysUser → SysUser)
    (un pw : String)
    (hf : ∀ v, (f v).username = v.username ∧ (f v).password = v.password) :
    authenticate (updateUser s pk' f) un pw =
      Option.map (fun v => if v.pk = pk' then f v else v) (authenticate s un pw) := by
  unfold authenticate updateUser
  have hp : ((fun u : SysUser => decide (u.username = un ∧ u.password = pw))
        ∘ fun v => if v.pk = pk' then f v else v)
      = fun u : SysUser => decide (u.username = un ∧ u.password = pw) := by
    funext v
    by_cases h : v.pk = pk' <;> simp [Function.comp, h, (hf v).1, (hf v).2]
  rw [List.find?_map, hp]

theorem findEvent_pk (s : SysState) (pk : Nat) (ev : EventRec)
    (h : findEvent s pk = some ev) : ev.pk = pk := by
  unfold findEvent at h
  have := List.find?_some h
  simpa using this

theorem change_user_role_eq_not_admin (s : SysState) (a tId : Nat) (r : String)
    (h : actorAdmin s a = false) :
    change_user_role s a tId r = (s, RoleChangeResult.errNotAdmin) := by
  unfold change_user_role
  simp [h]

theorem change_user_role_eq_not_found (s : SysState) (a tId : Nat) (r : String)
    (hA : actorAdmin s a = true) (hF : findUser s tId = none) :
    change_user_role s a tId r = (s, RoleChangeResult.errNotFound) := by
  unfold change_user_role
  simp [hA, hF]

theorem change_user_role_eq_invalid (s : SysState) (a tId : Nat) (r : String) (u : SysUser)
    (hA : actorAdmin s a = true) (hF : findUser s tId = some u)
    (hr : pyLower r ∉ ["organizer", "participant"]) :
    change_user_role s a tId r = (s, RoleChangeResult.errInvalidRole) := by
  unfold change_user_role
  simp [hA, hF, hr]

theorem change_user_role_eq_self (s : SysState) (a tId : Nat) (r : String) (u : SysUser)
    (hA : actorAdmin s a = true) (hF : findUser s tId = some u)
    (hr : pyLower r ∈ ["organizer", "participant"]) (hself : u.pk = a) :
    change_user_role s a tId r = (s, RoleChangeResult.errSelfChange) := by
  unfold change_user_role
  simp only [List.mem_cons, List.mem_singleton, List.not_mem_nil, or_false] at hr
  rcases hr with hr | hr <;> simp [hA, hF, hr, hself]

theorem change_user_role_eq_ok (s : SysState) (a tId : Nat) (r : String) (u : SysUser)
    (hA : actorAdmin s a = true) (hF : findUser s tId = some u)
    (hr : pyLower r ∈ ["organizer", "participant"]) (hself : ¬(u.pk = a)) :
    change_user_role s a tId r =
      (updateUser { s with groupTable := m2mAdd s.groupTable (pyCapitalize r) } tId
        (fun v => { v with groups := [pyCapitalize r] }), RoleChangeResult.ok) := by
  unfold change_user_role
  simp only [List.mem_cons, List.mem_singleton, List.not_mem_nil, or_false] at hr
  rcases hr with hr | hr <;> simp [hA, hF, hr, hself]

/-- C7: for every role argument, `change_user_role` invoked with the target
equal to the acting user never succeeds — one of the error/redirect branches
(missing admin rights, invalid role, or the self-change guard) always fires
first — and the datastore is left unchanged. -/
theorem change_user_role_self_rejected (s : SysState) (pk : Nat) (role : String) :
    (change_user_role s pk pk role).1 = s ∧
      (change_user_role s pk pk role).2 ≠ RoleChangeResult.ok := by
  by_cases hA : actorAdmin s pk = true
  · cases hF : findUser s pk with
    | none =>
      rw [change_user_role_eq_not_found s pk pk role hA hF]
      exact ⟨rfl, by simp⟩
    | some a =>
      have hpk : a.pk = pk := findUser_pk s pk a hF
      by_cases hr : pyLower role ∉ ["organizer", "participant"]
      · rw [change_user_role_eq_invalid s pk pk role a hA hF hr]
        exact ⟨rfl, by simp⟩
      · rw [change_user_role_eq_self s pk pk role a hA hF (not_not.mp hr) hpk]
        exact ⟨rfl, by simp⟩
  · have hA' : actorAdmin s pk = false := by
      rwa [Bool.not_eq_true] at hA
    rw [change_user_role_eq_not_admin s pk pk role hA']
    exact ⟨rfl, by simp⟩

/-- C8: `Event.save` on a new row derives an empty slug from the title via
`slugify` and keeps a non-empty slug verbatim; in either case a collision
with an existing row's slug raises `IntegrityError` (no disambiguation), and
absent a collision the row is inserted as is. -/
theorem event_slug_rules (db : List EventRec) (e : EventRec) :
    (e.slug = "" → (∀ x ∈ db, x.slug ≠ slugify e.title) →
        eventSave db e = Except.ok (db ++ [{ e with slug := slugify e.title }])) ∧
    (e.slug = "" → (∃ x ∈ db, x.slug = slugify e.title) →
        eventSave db e = Except.error "IntegrityError") ∧
    (e.slug ≠ "" → (∀ x ∈ db, x.slug ≠ e.slug) →
        eventSave db e = Except.ok (db ++ [e])) ∧
    (e.slug ≠ "" → (∃ x ∈ db, x.slug = e.slug) →
        eventSave db e = Except.error "IntegrityError") := by
  refine ⟨?_, ?_, ?_, ?_⟩ <;> intro h1 h2 <;> unfold eventSave <;> simp [h1]
  · intro x hx
    exact h2 x hx
  · obtain ⟨x, hx, hslug⟩ := h2
    exact ⟨x, hx, hslug⟩
  · intro x hx
    exact h2 x hx
  · obtain ⟨x, hx, hslug⟩ := h2
    exact ⟨x, hx, hslug⟩

/-- C8 witness: the first `Tech Meetup` event derives the slug `tech-meetup`;
a second one with the same (empty-slug) title is rejected with
`IntegrityError`; a row carrying a non-empty slug keeps it. -/
theorem event_slug_rules_witness :
    eventSave [] (eventFromForm 1 ⟨"Tech Meetup", "Talks", 100, "tech", "i.jpg"⟩) =
      Except.ok [{ eventFromForm 1 ⟨"Tech Meetup", "Talks", 100, "tech", "i.jpg"⟩
                    with slug := slugify "Tech Meetup" }] ∧
    eventSave [sampleEvent] (eventFromForm 2 ⟨"Tech Meetup", "Other", 200, "tech", "j.jpg"⟩) =
      Except.error "IntegrityError" ∧
    eventSave [] sampleEvent = Except.ok [sampleEvent] := by
  refine ⟨?_, ?_, ?_⟩
  · exact (event_slug_rules [] _).1 (by decide) (by decide)
  · exact (event_slug_rules [sampleEvent] _).2.1 (by decide)
      ⟨sampleEvent, by decide, by decide⟩
  · exact (event_slug_rules [] sampleEvent).2.2.1 (by decide) (by decide)

/-- An event row with no organizer and no RSVPs survives the relational
fallout of deleting any user. -/
theorem cascade_keeps_unowned (e : EventRec) (horg : e.organizer = none)
    (hrs : e.rsvps = []) (s : SysState) (pk : Nat) (he : e ∈ s.events) :
    e ∈ (deleteUserCascade s pk).events := by
  unfold deleteUserCascade
  simp only [List.mem_map]
  refine ⟨e, List.mem_filter.mpr ⟨he, by simp [horg]⟩, ?_⟩
  obtain ⟨epk, t, d, dt, c, i, sl, org, rs⟩ := e
  change rs = [] at hrs
  subst hrs
  rfl

/-- C9: every event created through the public event-creation view is
appended with `organizer = NULL` and an empty RSVP set — the form exposes no
organizer field and the view assigns none — so the owner-cascade on user
deletion never removes a web-created event. -/
theorem web_event_has_no_organizer (db db' : List EventRec) (f : EventFormData)
    (h : eventCreateView db f = Except.ok db') :
    ∃ e, db' = db ++ [e] ∧ e.organizer = none ∧ e.rsvps = [] ∧
      ∀ (s : SysState) (pk : Nat), e ∈ s.events → e ∈ (deleteUserCascade s pk).events := by
  by_cases hcol : (db.any fun x => decide (x.slug = slugify f.title)) = true
  · exfalso
    simp [eventCreateView, eventSave, eventFromForm, hcol] at h
  · simp [eventCreateView, eventSave, eventFromForm, hcol] at h
    refine ⟨_, h.symm, rfl, rfl, ?_⟩
    intro s pk he
    exact cascade_keeps_unowned _ rfl rfl s pk he

/-- A sample event-creation form submission. -/
def demoForm : EventFormData :=
  { title := "Art Night", description := "Paint", date := 50
  , category := "art", image := "a.jpg" }

/-- The row the sample submission is expected to produce. -/
def artRow : EventRec :=
  { pk := 1, title := "Art Night", description := "Paint", date := 50
  , category := "art", image := "a.jpg", slug := "art-night", organizer := none, rsvps := [] }

/-- C9 witness: creating `Art Night` on an empty event table yields a row
with slug `art-night`, no organizer, and immunity to every user-deletion
cascade. -/
theorem web_event_has_no_organizer_witness :
    ∃ e, [artRow] = [] ++ [e] ∧
      e.organizer = none ∧ e.rsvps = [] ∧
      ∀ (s : SysState) (pk : Nat), e ∈ s.events → e ∈ (deleteUserCascade s pk).events :=
  web_event_has_no_organizer [] [artRow] demoForm (by decide)

/-- C10: a successful signup creates exactly one inactive user row and
dispatches the activation e-mail exactly twice — first from the `post_save`
signal with the fixed `localhost:8000` link, then from the handler with the
request-domain link — both links embedding the same encoded uid and the same
token for the new user. -/
theorem signup_sends_two_emails (s : SysState) (un em pw dom : String)
    (hfree : ∀ u ∈ s.users, u.username ≠ un) :
    ∃ u, (signUpView s un em pw dom).1.users = s.users ++ [u] ∧
      u.email = em ∧ u.isActive = false ∧
      (signUpView s un em pw dom).2 =
        [ { recipient := em
          , link := { domain := "localhost:8000", uid := uidEncode u.pk, token := makeToken u } }
        , { recipient := em
          , link := { domain := dom, uid := uidEncode u.pk, token := makeToken u } } ] := by
  have hany : ¬((s.users.any fun u => decide (u.username = un)) = true) := by
    rw [List.any_eq_true]
    rintro ⟨u, hu, hp⟩
    exact hfree u hu (of_decide_eq_true hp)
  refine ⟨{ pk := freshPk s, username := un, email := em, password := pw
          , lastLogin := none, isSuperuser := false, isActive := false, groups := [] },
    ?_, rfl, rfl, ?_⟩
  · unfold signUpView
    rw [if_neg hany]
  · unfold signUpView
    rw [if_neg hany]
    rfl

/-- C10 witness: `dave` signs up against the one-user datastore; the two
activation e-mails and their differently-hosted links come out as stated. -/
theorem signup_sends_two_emails_witness :
    ∃ u, (signUpView regState "dave" "dave@example.com" "davepw" "example.com").1.users
        = regState.users ++ [u] ∧
      u.email = "dave@example.com" ∧ u.isActive = false ∧
      (signUpView regState "dave" "dave@example.com" "davepw" "example.com").2 =
        [ { recipient := "dave@example.com"
          , link := { domain := "localhost:8000", uid := uidEncode u.pk, token := makeToken u } }
        , { recipient := "dave@example.com"
          , link := { domain := "example.com", uid := uidEncode u.pk, token := makeToken u } } ] :=
  signup_sends_two_emails regState "dave" "dave@example.com" "davepw" "example.com" (by decide)

/-- Shape of a successful `activate_account` call: the uid decoded, the user
was found, the token check passed, and the state change is exactly the
activation-flag update of that user. -/
theorem activate_success_shape (s : SysState) (uidb64 : String) (t : Token) (pk : Nat)
    (h : (activate_account s uidb64 t).2 = ActivationResult.success pk) :
    uidDecode uidb64 = some pk ∧
    ∃ u, findUser s pk = some u ∧ checkToken u t = true ∧
      (activate_account s uidb64 t).1 =
        updateUser s pk (fun v => { v with isActive := true }) := by
  unfold activate_account at h ⊢
  split at h
  · simp at h
  · rename_i pk' hdec
    split at h
    · simp at h
    · rename_i u hfind
      split at h
      · rename_i h3
        simp only at h
        simp only [ActivationResult.success.injEq] at h
        subst h
        refine ⟨hdec, u, hfind, h3, ?_⟩
        simp only [hdec, hfind, if_pos h3]
      · simp at h

/-- C5: `activate_account` leaves the datastore untouched on every failure
(undecodable uid, unknown user, failed token check), and on success its only
effect is setting the found user's `is_active` flag to true. -/
theorem activate_failure_no_mutation (s : SysState) (uidb64 : String) (t : Token) :
    ((activate_account s uidb64 t).2 = ActivationResult.invalid →
        (activate_account s uidb64 t).1 = s) ∧
    (∀ pk, (activate_account s uidb64 t).2 = ActivationResult.success pk →
        ∃ u, findUser s pk = some u ∧ checkToken u t = true ∧
          (activate_account s uidb64 t).1 =
            updateUser s pk (fun v => { v with isActive := true })) := by
  constructor
  · intro hinv
    unfold activate_account at hinv ⊢
    split at hinv
    · rename_i hdec
      simp only [hdec]
    · rename_i pk' hdec
      split at hinv
      · rename_i hfind
        simp only [hdec, hfind]
      · rename_i u hfind
        split at hinv
        · simp at hinv
        · rename_i h3
          simp only [hdec, hfind, if_neg h3]
  · intro pk hsucc
    exact (activate_success_shape s uidb64 t pk hsucc).2

/-- C5 witness: an undecodable uid leaves `regState` unchanged, and the
genuine activation of `alice` is exactly her flag update. -/
theorem activate_failure_no_mutation_witness :
    ((activate_account regState "zz" tokA).1 = regState) ∧
    (∃ u, findUser regState 3 = some u ∧ checkToken u tokA = true ∧
      (activate_account regState "3" tokA).1 =
        updateUser regState 3 (fun v => { v with isActive := true })) := by
  constructor
  · exact (activate_failure_no_mutation regState "zz" tokA).1 (by decide)
  · exact (activate_failure_no_mutation regState "3" tokA).2 3 (by decide)

/-- C4 counterexample: `alice` registers (pk 3, inactive) and receives the
token `tokA`; activation with `tokA` succeeds, yet presenting the very same
token afterwards is still accepted by the check function and a second
activation succeeds again — the claim that the state change from inactive to
active invalidates the token is false, because
`PasswordResetTokenGenerator`'s hash value does not cover `is_active`. -/
theorem token_reuse_accepted :
    (activate_account regState "3" tokA).2 = ActivationResult.success 3 ∧
    checkToken ((findUser (activate_account regState "3" tokA).1 3).getD sampleUserA) tokA
      = true ∧
    (activate_account (activate_account regState "3" tokA).1 "3" tokA).2
      = ActivationResult.success 3 := by
  decide

/-- Defining equation of `activate_account` on the success path. -/
theorem activate_account_eq_of (s : SysState) (uidb64 : String) (t : Token) (pk : Nat)
    (u : SysUser) (hdec : uidDecode uidb64 = some pk) (hfind : findUser s pk = some u)
    (hchk : checkToken u t = true) :
    activate_account s uidb64 t =
      (updateUser s pk (fun v => { v with isActive := true }), ActivationResult.success pk) := by
  unfold activate_account
  simp [hdec, hfind, hchk]

/-- Setting the activation flag twice is the same as setting it once. -/
theorem updateUser_activate_idem (s : SysState) (pk : Nat) :
    updateUser (updateUser s pk (fun v => { v with isActive := true })) pk
        (fun v => { v with isActive := true })
      = updateUser s pk (fun v => { v with isActive := true }) := by
  unfold updateUser
  simp only [List.map_map]
  congr 1
  apply List.map_congr_left
  intro a _
  by_cases h : a.pk = pk <;> simp [Function.comp, h]

/-- C4 (amended): the activation token is not single-use.  After an
activation succeeds, the same token still passes the check function —
`default_token_generator`'s hash value covers pk, password, last-login and
e-mail but not the activation flag, and activation changes only that flag —
and re-presenting the token re-runs the activation successfully and
idempotently. -/
theorem token_survives_activation (s : SysState) (uidb64 : String) (t : Token) (pk : Nat)
    (h : (activate_account s uidb64 t).2 = ActivationResult.success pk) :
    ∃ u1, findUser (activate_account s uidb64 t).1 pk = some u1 ∧
      checkToken u1 t = true ∧
      activate_account (activate_account s uidb64 t).1 uidb64 t =
        ((activate_account s uidb64 t).1, ActivationResult.success pk) := by
  obtain ⟨hdec, u, hu, hchk, hstate⟩ := activate_success_shape s uidb64 t pk h
  have hupk : u.pk = pk := findUser_pk s pk u hu
  have hfind1 : findUser (activate_account s uidb64 t).1 pk
      = some { u with isActive := true } := by
    rw [hstate,
      findUser_updateUser s pk pk (fun v => { v with isActive := true }) (fun v => rfl), hu]
    simp [hupk]
  have hchk1 : checkToken { u with isActive := true } t = true := by
    unfold checkToken makeToken at *
    simpa using hchk
  refine ⟨{ u with isActive := true }, hfind1, hchk1, ?_⟩
  rw [activate_account_eq_of (activate_account s uidb64 t).1 uidb64 t pk
    { u with isActive := true } hdec hfind1 hchk1]
  rw [hstate, updateUser_activate_idem]

/-- C4 (amended) witness: the concrete re-activation of `alice`. -/
theorem token_survives_activation_witness :
    ∃ u1, findUser (activate_account regState "3" tokA).1 3 = some u1 ∧
      checkToken u1 tokA = true ∧
      activate_account (activate_account regState "3" tokA).1 "3" tokA =
        ((activate_account regState "3" tokA).1, ActivationResult.success 3) :=
  token_survives_activation regState "3" tokA 3 (by decide)

theorem m2mAdd_mem {α : Type} [DecidableEq α] (l : List α) (a : α) : a ∈ m2mAdd l a := by
  unfold m2mAdd
  by_cases h : a ∈ l <;> simp [h]

theorem m2mAdd_idem {α : Type} [DecidableEq α] (l : List α) (a : α) :
    m2mAdd (m2mAdd l a) a = m2mAdd l a := by
  unfold m2mAdd
  by_cases h : a ∈ l <;> simp [h]

theorem m2mAdd_of_not_mem {α : Type} [DecidableEq α] (l : List α) (a : α) (h : a ∉ l) :
    m2mAdd l a = l ++ [a] := by
  unfold m2mAdd
  rw [if_neg h]

/-- The join-table insert leaves exactly one row for the added member when
the uniqueness invariant held before. -/
theorem count_m2mAdd {α : Type} [DecidableEq α] (l : List α) (a : α)
    (h : l.count a ≤ 1) : (m2mAdd l a).count a = 1 := by
  unfold m2mAdd
  by_cases hm : a ∈ l
  · rw [if_pos hm]
    have hpos : 0 < l.count a := List.count_pos_iff.mpr hm
    omega
  · rw [if_neg hm, List.count_append]
    have hz : l.count a = 0 := List.count_eq_zero.mpr hm
    simp [hz]

theorem findUser_updateEvent (s : SysState) (epk : Nat) (f : EventRec → EventRec)
    (pk : Nat) : findUser (updateEvent s epk f) pk = findUser s pk := rfl

/-- Adding the same RSVP row twice is the same as adding it once. -/
theorem updateEvent_add_idem (s : SysState) (epk a : Nat) :
    updateEvent (updateEvent s epk (fun e => { e with rsvps := m2mAdd e.rsvps a })) epk
        (fun e => { e with rsvps := m2mAdd e.rsvps a })
      = updateEvent s epk (fun e => { e with rsvps := m2mAdd e.rsvps a }) := by
  unfold updateEvent
  simp only [List.map_map]
  congr 1
  apply List.map_congr_left
  intro e _
  by_cases h : e.pk = epk <;> simp [Function.comp, h, m2mAdd_idem]

theorem rsvpSignalEmails_nil (s : SysState) (ev : EventRec) :
    rsvpSignalEmails s ev [] = [] := rfl

theorem rsvpSignalEmails_singleton_len (s : SysState) (ev : EventRec) (uid : Nat) :
    (rsvpSignalEmails s ev [uid]).length ≤ 1 := by
  unfold rsvpSignalEmails
  simp only [List.filterMap_cons, List.filterMap_nil]
  cases h : findUser s uid <;> simp [h]

/-- Defining equation of `rsvp_event` once the event and the user are found. -/
theorem rsvp_event_eq_of (s : SysState) (upk epk : Nat) (ev : EventRec) (u : SysUser)
    (hev : findEvent s epk = some ev) (hu : findUser s upk = some u) :
    rsvp_event s upk epk =
      (updateEvent s epk (fun e => { e with rsvps := m2mAdd e.rsvps u.pk }),
        rsvpSignalEmails
          (updateEvent s epk (fun e => { e with rsvps := m2mAdd e.rsvps u.pk })) ev
          (if u.pk ∈ ev.rsvps then [] else [u.pk])) := by
  unfold rsvp_event
  rw [hev, hu]

/-- C2: RSVPing the same user to the same event twice leaves exactly one
join-table row for that user on the event, the second call changes nothing
and sends nothing, and the two calls together dispatch at most one
confirmation e-mail (the notification fires only for newly-inserted
members). -/
theorem rsvp_twice_idempotent (s : SysState) (upk epk : Nat) (ev : EventRec) (u : SysUser)
    (hev : findEvent s epk = some ev) (hu : findUser s upk = some u)
    (hcount : ev.rsvps.count u.pk ≤ 1) :
    ∃ ev1, findEvent (rsvp_event s upk epk).1 epk = some ev1 ∧
      ev1.rsvps.count u.pk = 1 ∧
      (rsvp_event (rsvp_event s upk epk).1 upk epk).1 = (rsvp_event s upk epk).1 ∧
      (rsvp_event (rsvp_event s upk epk).1 upk epk).2 = [] ∧
      (rsvp_event s upk epk).2.length
        + (rsvp_event (rsvp_event s upk epk).1 upk epk).2.length ≤ 1 := by
  have hevpk : ev.pk = epk := findEvent_pk s epk ev hev
  have hstep := rsvp_event_eq_of s upk epk ev u hev hu
  have hfind1 : findEvent (rsvp_event s upk epk).1 epk
      = some { ev with rsvps := m2mAdd ev.rsvps u.pk } := by
    rw [hstep]
    rw [findEvent_updateEvent s epk epk (fun e => { e with rsvps := m2mAdd e.rsvps u.pk })
        (fun v => rfl), hev]
    simp [hevpk]
  have hu1 : findUser (rsvp_event s upk epk).1 upk = some u := by
    rw [hstep]
    exact hu
  have hstep2 := rsvp_event_eq_of (rsvp_event s upk epk).1 upk epk
      { ev with rsvps := m2mAdd ev.rsvps u.pk } u hfind1 hu1
  rw [if_pos (m2mAdd_mem ev.rsvps u.pk)] at hstep2
  refine ⟨{ ev with rsvps := m2mAdd ev.rsvps u.pk }, hfind1,
    count_m2mAdd ev.rsvps u.pk hcount, ?_, ?_, ?_⟩
  · rw [hstep2, hstep]
    exact updateEvent_add_idem s epk u.pk
  · rw [hstep2]
    rfl
  · rw [hstep2, hstep]
    by_cases hm : u.pk ∈ ev.rsvps
    · rw [if_pos hm]
      show (rsvpSignalEmails
          (updateEvent s epk (fun e => { e with rsvps := m2mAdd e.rsvps u.pk })) ev
          []).length + ([] : List RsvpEmail).length ≤ 1
      simp [rsvpSignalEmails_nil]
    · rw [if_neg hm]
      have hlen := rsvpSignalEmails_singleton_len
        (updateEvent s epk (fun e => { e with rsvps := m2mAdd e.rsvps u.pk })) ev u.pk
      show (rsvpSignalEmails
          (updateEvent s epk (fun e => { e with rsvps := m2mAdd e.rsvps u.pk })) ev
          [u.pk]).length + ([] : List RsvpEmail).length ≤ 1
      simpa using hlen

/-- C2 witness: `carol` RSVPs twice to the sample event. -/
theorem rsvp_twice_idempotent_witness :
    ∃ ev1, findEvent (rsvp_event sampleState 4 1).1 1 = some ev1 ∧
      ev1.rsvps.count 4 = 1 ∧
      (rsvp_event (rsvp_event sampleState 4 1).1 4 1).1 = (rsvp_event sampleState 4 1).1 ∧
      (rsvp_event (rsvp_event sampleState 4 1).1 4 1).2 = [] ∧
      (rsvp_event sampleState 4 1).2.length
        + (rsvp_event (rsvp_event sampleState 4 1).1 4 1).2.length ≤ 1 := by
  have h := rsvp_twice_idempotent sampleState 4 1 sampleEvent samplePlain
    (by decide) (by decide) (by decide)
  simpa using h

theorem roleGroupCount_eq (gs : List String) :
    roleGroupCount gs =
      (if "Admin" ∈ gs then 1 else 0) + ((if "Organizer" ∈ gs then 1 else 0)
        + (if "Participant" ∈ gs then 1 else 0)) := by
  unfold roleGroupCount canonicalRoles
  by_cases h1 : "Admin" ∈ gs <;> by_cases h2 : "Organizer" ∈ gs <;>
    by_cases h3 : "Participant" ∈ gs <;>
      simp [h1, h2, h3, List.filter_cons]

theorem not_mem_of_roleGroupCount_zero (gs : List String) (h : roleGroupCount gs = 0) :
    "Admin" ∉ gs ∧ "Organizer" ∉ gs ∧ "Participant" ∉ gs := by
  rw [roleGroupCount_eq] at h
  by_cases h1 : "Admin" ∈ gs <;> by_cases h2 : "Organizer" ∈ gs <;>
    by_cases h3 : "Participant" ∈ gs <;> simp_all

theorem find?_pk_of_mem (l : List SysUser) (u : SysUser)
    (hnd : (l.map SysUser.pk).Nodup) (hm : u ∈ l) :
    l.find? (fun v => decide (v.pk = u.pk)) = some u := by
  induction l with
  | nil => cases hm
  | cons a l ih =>
    rw [List.map_cons, List.nodup_cons] at hnd
    rcases List.mem_cons.mp hm with h | h
    · subst h
      exact List.find?_cons_of_pos _ (by simp)
    · have hne : ¬(a.pk = u.pk) := by
        intro he
        apply hnd.1
        rw [he]
        exact List.mem_map_of_mem SysUser.pk h
      rw [List.find?_cons_of_neg _ (by simp [hne])]
      exact ih hnd.2 h

theorem findUser_of_mem (s : SysState) (u : SysUser)
    (hnd : (s.users.map SysUser.pk).Nodup) (hm : u ∈ s.users) :
    findUser s u.pk = some u :=
  find?_pk_of_mem s.users u hnd hm

/-- State transition of a non-superuser active login: the default-role
branch runs iff the user holds neither `Organizer` nor `Participant`, and
`last_login` is stamped in either case. -/
theorem login_view_eq_nonsuper (s : SysState) (un pw : String) (now : Nat) (u : SysUser)
    (hauth : authenticate s un pw = some u) (hact : u.isActive = true)
    (hsup : u.isSuperuser = false) :
    (login_view s un pw now).1 =
      updateUser
        (if (is_organizer u || is_participant u) = true then s
         else
           updateUser { s with groupTable := m2mAdd s.groupTable "Participant" } u.pk
             (fun v => { v with groups := m2mAdd v.groups "Participant" }))
        u.pk (fun v => { v with lastLogin := some now }) := by
  unfold login_view
  rw [hauth]
  by_cases hc : (is_organizer u || is_participant u) = true
  · simp [hact, hsup, hc]
  · rw [Bool.not_eq_true] at hc
    simp [hact, hsup, hc]

/-- C6: a successful login of an active non-superuser holding no role group
appends exactly one `Participant` membership row, and a second successful
login of the same user leaves the group memberships unchanged (the default
assignment is idempotent). -/
theorem login_default_participant_once (s : SysState) (un pw : String) (now now2 : Nat)
    (u : SysUser)
    (hnd : (s.users.map SysUser.pk).Nodup)
    (hauth : authenticate s un pw = some u)
    (hact : u.isActive = true) (hsup : u.isSuperuser = false)
    (hrole : roleGroupCount u.groups = 0) :
    ∃ u1, findUser (login_view s un pw now).1 u.pk = some u1 ∧
      u1.groups = u.groups ++ ["Participant"] ∧
      u1.groups.count "Participant" = 1 ∧
      ∃ u2, findUser (login_view (login_view s un pw now).1 un pw now2).1 u.pk = some u2 ∧
        u2.groups = u1.groups := by
  obtain ⟨hAdm, hOrg, hPart⟩ := not_mem_of_roleGroupCount_zero u.groups hrole
  have hOrgb : is_organizer u = false := by
    simp [is_organizer, hOrg]
  have hPartb : is_participant u = false := by
    simp [is_participant, hPart]
  have hcfalse : ¬((is_organizer u || is_participant u) = true) := by
    simp [hOrgb, hPartb]
  have hmem : u ∈ s.users := by
    unfold authenticate at hauth
    exact List.mem_of_find?_eq_some hauth
  have hfu : findUser s u.pk = some u := findUser_of_mem s u hnd hmem
  have hs1 := login_view_eq_nonsuper s un pw now u hauth hact hsup
  rw [if_neg hcfalse] at hs1
  have hfu1 : findUser (login_view s un pw now).1 u.pk
      = some { u with groups := m2mAdd u.groups "Participant", lastLogin := some now } := by
    rw [hs1,
      findUser_updateUser _ u.pk u.pk (fun v => { v with lastLogin := some now })
        (fun v => rfl),
      findUser_updateUser _ u.pk u.pk (fun v => { v with groups := m2mAdd v.groups "Participant" })
        (fun v => rfl)]
    rw [show findUser { s with groupTable := m2mAdd s.groupTable "Participant" } u.pk
          = findUser s u.pk from rfl, hfu]
    simp
  have hauth2 : authenticate (login_view s un pw now).1 un pw
      = some { u with groups := m2mAdd u.groups "Participant", lastLogin := some now } := by
    rw [hs1,
      authenticate_updateUser _ u.pk (fun v => { v with lastLogin := some now }) un pw
        (fun v => ⟨rfl, rfl⟩),
      authenticate_updateUser _ u.pk (fun v => { v with groups := m2mAdd v.groups "Participant" })
        un pw (fun v => ⟨rfl, rfl⟩)]
    rw [show authenticate { s with groupTable := m2mAdd s.groupTable "Participant" } un pw
          = authenticate s un pw from rfl, hauth]
    simp
  have hc1 : (is_organizer { u with groups := m2mAdd u.groups "Participant", lastLogin := some now }
      || is_participant { u with groups := m2mAdd u.groups "Participant", lastLogin := some now })
      = true := by
    have hp : is_participant
        { u with groups := m2mAdd u.groups "Participant", lastLogin := some now } = true := by
      simp only [is_participant, decide_eq_true_eq]
      exact m2mAdd_mem u.groups "Participant"
    simp [hp]
  have hs2 := login_view_eq_nonsuper (login_view s un pw now).1 un pw now2
    { u with groups := m2mAdd u.groups "Participant", lastLogin := some now } hauth2 hact hsup
  rw [if_pos hc1] at hs2
  have hfu2 : findUser (login_view (login_view s un pw now).1 un pw now2).1 u.pk
      = some { u with groups := m2mAdd u.groups "Participant", lastLogin := some now2 } := by
    rw [hs2,
      findUser_updateUser _ u.pk u.pk (fun v => { v with lastLogin := some now2 })
        (fun v => rfl), hfu1]
    simp
  refine ⟨{ u with groups := m2mAdd u.groups "Participant", lastLogin := some now },
    hfu1, ?_, ?_, ?_⟩
  · exact m2mAdd_of_not_mem u.groups "Participant" hPart
  · rw [show ({ u with groups := m2mAdd u.groups "Participant", lastLogin := some now }
        : SysUser).groups = m2mAdd u.groups "Participant" from rfl]
    rw [m2mAdd_of_not_mem u.groups "Participant" hPart, List.count_append]
    have hz : u.groups.count "Participant" = 0 := List.count_eq_zero.mpr hPart
    simp [hz]
  · exact ⟨{ u with groups := m2mAdd u.groups "Participant", lastLogin := some now2 },
      hfu2, rfl⟩

/-- C6 witness: `carol` (active, no groups) logs in twice. -/
theorem login_default_participant_once_witness :
    ∃ u1, findUser (login_view sampleState "carol" "carolpw" 20).1 samplePlain.pk = some u1 ∧
      u1.groups = samplePlain.groups ++ ["Participant"] ∧
      u1.groups.count "Participant" = 1 ∧
      ∃ u2, findUser (login_view (login_view sampleState "carol" "carolpw" 20).1
          "carol" "carolpw" 21).1 samplePlain.pk = some u2 ∧
        u2.groups = u1.groups :=
  login_default_participant_once sampleState "carol" "carolpw" 20 21 samplePlain
    (by decide) (by decide) (by decide) (by decide) (by decide)

theorem find?_append_some {α : Type} (p : α → Bool) (l1 l2 : List α) (a : α)
    (h : l1.find? p = some a) : (l1 ++ l2).find? p = some a := by
  rw [List.find?_append, h]
  rfl

theorem find?_filter_first {α : Type} (p q : α → Bool) (l : List α) (a : α)
    (h : l.find? p = some a) (hq : q a = true) :
    (l.filter q).find? p = some a := by
  induction l with
  | nil => cases h
  | cons x l ih =>
    by_cases hx : p x = true
    · rw [List.find?_cons_of_pos _ hx] at h
      injection h with h
      subst h
      rw [List.filter_cons, if_pos hq]
      exact List.find?_cons_of_pos _ hx
    · rw [List.find?_cons_of_neg _ hx] at h
      rw [List.filter_cons]
      by_cases hqx : q x = true
      · rw [if_pos hqx, List.find?_cons_of_neg _ hx]
        exact ih h
      · rw [if_neg hqx]
        exact ih h

theorem isActive_of_mapped {u u' : SysUser} (f : SysUser → SysUser) (pk' : Nat)
    (hf : ∀ v, (f v).isActive = v.isActive)
    (h : Option.map (fun v => if v.pk = pk' then f v else v) (some u) = some u') :
    u'.isActive = u.isActive := by
  simp only [Option.map_some'] at h
  injection h with h
  subst h
  by_cases hp : u.pk = pk' <;> simp [hp, hf]

theorem login_view_eq_none (s : SysState) (un pw : String) (now : Nat)
    (h : authenticate s un pw = none) :
    login_view s un pw now = (s, LoginOutcome.failed) := by
  unfold login_view
  rw [h]

theorem login_view_eq_inactive (s : SysState) (un pw : String) (now : Nat) (u : SysUser)
    (h : authenticate s un pw = some u) (hia : u.isActive = false) :
    login_view s un pw now = (s, LoginOutcome.failed) := by
  unfold login_view
  rw [h]
  simp [hia]

theorem login_view_eq_super (s : SysState) (un pw : String) (now : Nat) (u : SysUser)
    (h : authenticate s un pw = some u) (hact : u.isActive = true)
    (hsup : u.isSuperuser = true) :
    (login_view s un pw now).1 =
      updateUser { s with groupTable := m2mAdd s.groupTable "Admin" } u.pk
        (fun v =>
          { v with groups := m2mAdd ([] : List String) "Admin", lastLogin := some now }) := by
  unfold login_view
  rw [h]
  simp [hact, hsup]

/-- The datastore after `change_user_role`: unchanged on every failure, and
on success exactly the group `get_or_create` plus the cleared-then-assigned
target groups. -/
theorem change_user_role_state (s : SysState) (a tId : Nat) (r : String) :
    (change_user_role s a tId r).1 = s ∨
    ∃ gName, (change_user_role s a tId r).1 =
      updateUser { s with groupTable := m2mAdd s.groupTable gName } tId
        (fun v => { v with groups := [gName] }) := by
  by_cases hA : actorAdmin s a = true
  · cases hF : findUser s tId with
    | none =>
      left
      rw [change_user_role_eq_not_found s a tId r hA hF]
    | some u =>
      by_cases hr : pyLower r ∉ ["organizer", "participant"]
      · left
        rw [change_user_role_eq_invalid s a tId r u hA hF hr]
      · by_cases hself : u.pk = a
        · left
          rw [change_user_role_eq_self s a tId r u hA hF (not_not.mp hr) hself]
        · right
          refine ⟨pyCapitalize r, ?_⟩
          rw [change_user_role_eq_ok s a tId r u hA hF (not_not.mp hr) hself]
  · have hA' : actorAdmin s a = false := by
      rwa [Bool.not_eq_true] at hA
    left
    rw [change_user_role_eq_not_admin s a tId r hA']

theorem user_delete_view_state (s : SysState) (a t : Nat) :
    user_delete_view s a t = s ∨ user_delete_view s a t = deleteUserCascade s t := by
  unfold user_delete_view
  by_cases h : deleteAllowed s a t = true
  · right
    rw [if_pos h]
  · left
    rw [if_neg h]

theorem signUpView_preserves_found (s : SysState) (un em pw dom : String) (pk : Nat)
    (u : SysUser) (hu : findUser s pk = some u) :
    findUser (signUpView s un em pw dom).1 pk = some u := by
  unfold signUpView
  split
  · exact hu
  · unfold findUser at hu ⊢
    exact find?_append_some _ _ _ _ hu

theorem login_view_preserves_isActive (s : SysState) (un pw : String) (now pk : Nat)
    (u u' : SysUser) (hu : findUser s pk = some u)
    (hu' : findUser (login_view s un pw now).1 pk = some u') :
    u'.isActive = u.isActive := by
  cases hauth : authenticate s un pw with
  | none =>
    rw [login_view_eq_none s un pw now hauth, hu] at hu'
    injection hu' with h
    rw [← h]
  | some w =>
    by_cases hwact : w.isActive = true
    · by_cases hwsup : w.isSuperuser = true
      · rw [login_view_eq_super s un pw now w hauth hwact hwsup,
          findUser_updateUser _ w.pk pk
            (fun v =>
              { v with groups := m2mAdd ([] : List String) "Admin", lastLogin := some now })
            (fun v => rfl)] at hu'
        rw [show findUser { s with groupTable := m2mAdd s.groupTable "Admin" } pk
            = findUser s pk from rfl, hu] at hu'
        exact isActive_of_mapped
          (fun v =>
            { v with groups := m2mAdd ([] : List String) "Admin", lastLogin := some now })
          w.pk (fun v => rfl) hu'
      · have hsup' : w.isSuperuser = false := by
          rwa [Bool.not_eq_true] at hwsup
        rw [login_view_eq_nonsuper s un pw now w hauth hwact hsup'] at hu'
        by_cases hc : (is_organizer w || is_participant w) = true
        · rw [if_pos hc,
            findUser_updateUser _ w.pk pk (fun v => { v with lastLogin := some now })
              (fun v => rfl), hu] at hu'
          exact isActive_of_mapped (fun v => { v with lastLogin := some now })
            w.pk (fun v => rfl) hu'
        · rw [if_neg hc, findUser_updateUser _ w.pk pk
              (fun v => { v with lastLogin := some now }) (fun v => rfl),
            findUser_updateUser _ w.pk pk
              (fun v => { v with groups := m2mAdd v.groups "Participant" })
              (fun v => rfl)] at hu'
          rw [show findUser { s with groupTable := m2mAdd s.groupTable "Participant" } pk
              = findUser s pk from rfl, hu] at hu'
          simp only [Option.map_some'] at hu'
          injection hu' with h
          subst h
          by_cases hp : u.pk = w.pk <;> simp [hp]
    · have hwact' : w.isActive = false := by
        rwa [Bool.not_eq_true] at hwact
      rw [login_view_eq_inactive s un pw now w hauth hwact', hu] at hu'
      injection hu' with h
      rw [← h]

theorem change_user_role_preserves_isActive (s : SysState) (a tId : Nat) (r : String)
    (pk : Nat) (u u' : SysUser) (hu : findUser s pk = some u)
    (hu' : findUser (change_user_role s a tId r).1 pk = some u') :
    u'.isActive = u.isActive := by
  rcases change_user_role_state s a tId r with h | ⟨g, h⟩
  · rw [h, hu] at hu'
    injection hu' with h'
    rw [← h']
  · rw [h, findUser_updateUser _ tId pk (fun v => { v with groups := [g] })
      (fun v => rfl)] at hu'
    rw [show findUser { s with groupTable := m2mAdd s.groupTable g } pk
        = findUser s pk from rfl, hu] at hu'
    exact isActive_of_mapped (fun v => { v with groups := [g] }) tId (fun v => rfl) hu'

theorem users_eq_findUser (s' s : SysState) (h : s'.users = s.users) (pk : Nat) :
    findUser s' pk = findUser s pk := by
  unfold findUser
  rw [h]

theorem rsvp_event_users (s : SysState) (a e : Nat) :
    ((rsvp_event s a e).1).users = s.users := by
  unfold rsvp_event
  split
  · rfl
  · split <;> rfl

theorem event_create_view_users (s : SysState) (f : EventFormData) :
    (event_create_view s f).users = s.users := by
  unfold event_create_view
  split <;> rfl

theorem user_delete_preserves_found_isActive (s : SysState) (a t pk : Nat)
    (u u' : SysUser) (hu : findUser s pk = some u)
    (hu' : findUser (user_delete_view s a t) pk = some u') :
    u'.isActive = u.isActive := by
  rcases user_delete_view_state s a t with h | h
  · rw [h, hu] at hu'
    injection hu' with h'
    rw [← h']
  · rw [h] at hu'
    have hupk : u.pk = pk := findUser_pk s pk u hu
    unfold deleteUserCascade findUser at hu'
    unfold findUser at hu
    by_cases ht : t = pk
    · exfalso
      subst ht
      have hmem := List.mem_of_find?_eq_some hu'
      have hp := List.find?_some hu'
      rw [List.mem_filter] at hmem
      have h1 : u'.pk = t := by simpa using hp
      have h2 : ¬(u'.pk = t) := by simpa using hmem.2
      exact h2 h1
    · have hq : (fun v : SysUser => decide (¬(v.pk = t))) u = true := by
        simp only [decide_eq_true_eq]
        rw [hupk]
        exact fun he => ht he.symm
      rw [find?_filter_first _ _ s.users u hu hq] at hu'
      injection hu' with h'
      rw [← h']

theorem applyOp_preserves_isActive (s : SysState) (op : Op) (pk : Nat) (u u' : SysUser)
    (hop : ∀ uidb64 t, op ≠ Op.opActivate uidb64 t)
    (hu : findUser s pk = some u)
    (hu' : findUser (applyOp s op) pk = some u') :
    u'.isActive = u.isActive := by
  cases op with
  | opSignUp un em pw dom =>
    rw [show applyOp s (Op.opSignUp un em pw dom) = (signUpView s un em pw dom).1 from rfl,
      signUpView_preserves_found s un em pw dom pk u hu] at hu'
    injection hu' with h
    rw [← h]
  | opLogin un pw now => exact login_view_preserves_isActive s un pw now pk u u' hu hu'
  | opChangeRole a t r => exact change_user_role_preserves_isActive s a t r pk u u' hu hu'
  | opActivate uidb64 t => exact absurd rfl (hop uidb64 t)
  | opRsvp a e =>
    rw [show applyOp s (Op.opRsvp a e) = (rsvp_event s a e).1 from rfl,
      users_eq_findUser _ s (rsvp_event_users s a e) pk, hu] at hu'
    injection hu' with h
    rw [← h]
  | opCreateEvent f =>
    rw [show applyOp s (Op.opCreateEvent f) = event_create_view s f from rfl,
      users_eq_findUser _ s (event_create_view_users s f) pk, hu] at hu'
    injection hu' with h
    rw [← h]
  | opDeleteUser a t =>
    exact user_delete_preserves_found_isActive s a t pk u u' hu hu'

theorem activate_invalid_state (s : SysState) (uidb64 : String) (t : Token)
    (h : (activate_account s uidb64 t).2 = ActivationResult.invalid) :
    (activate_account s uidb64 t).1 = s := by
  unfold activate_account at h ⊢
  split at h
  · rename_i hdec
    simp only [hdec]
  · rename_i pk' hdec
    split at h
    · rename_i hfind
      simp only [hdec, hfind]
    · rename_i w hfind
      split at h
      · simp at h
      · rename_i h3
        simp only [hdec, hfind, if_neg h3]

/-- C3: a user row created by registration is inactive, the activation flag
can only flip from false to true through an `activate_account` call whose
uid decodes to that user's pk and whose token checks out against that exact
user state, and a token made for one user never checks out against a user
with a different pk. -/
theorem registered_inactive_until_activate :
    (∀ (s : SysState) (un em pw dom : String),
      ∀ u ∈ (signUpView s un em pw dom).1.users, u ∉ s.users → u.isActive = false) ∧
    (∀ (s : SysState) (op : Op) (pk : Nat) (u u' : SysUser),
      findUser s pk = some u → findUser (applyOp s op) pk = some u' →
      u.isActive = false → u'.isActive = true →
      ∃ uidb64 t, op = Op.opActivate uidb64 t ∧ uidDecode uidb64 = some pk ∧
        checkToken u t = true) ∧
    (∀ a b : SysUser, a.pk ≠ b.pk → checkToken b (makeToken a) = false) := by
  refine ⟨?_, ?_, ?_⟩
  · intro s un em pw dom u hu hnotin
    unfold signUpView at hu
    split at hu
    · exact absurd hu hnotin
    · rcases List.mem_append.mp hu with h | h
      · exact absurd h hnotin
      · rw [List.mem_singleton] at h
        rw [h]
  · intro s op pk u u' hu hu' hia hia'
    by_cases hact_op : ∃ uidb64 t, op = Op.opActivate uidb64 t
    · obtain ⟨uidb64, t, rfl⟩ := hact_op
      cases hres : (activate_account s uidb64 t).2 with
      | invalid =>
        exfalso
        rw [show applyOp s (Op.opActivate uidb64 t) = (activate_account s uidb64 t).1 from rfl,
          activate_invalid_state s uidb64 t hres, hu] at hu'
        injection hu' with h
        rw [← h, hia] at hia'
        exact Bool.noConfusion hia'
      | success pk' =>
        obtain ⟨hdec, w, hw, hchk, hstate⟩ := activate_success_shape s uidb64 t pk' hres
        by_cases hpk : pk' = pk
        · subst hpk
          rw [hu] at hw
          injection hw with hw
          refine ⟨uidb64, t, rfl, hdec, ?_⟩
          rw [hw]
          exact hchk
        · exfalso
          have hupk : u.pk = pk := findUser_pk s pk u hu
          rw [show applyOp s (Op.opActivate uidb64 t) = (activate_account s uidb64 t).1 from rfl,
            hstate, findUser_updateUser s pk' pk (fun v => { v with isActive := true })
              (fun v => rfl), hu] at hu'
          simp only [Option.map_some'] at hu'
          injection hu' with h
          rw [← h, if_neg (by rw [hupk]; exact fun hh => hpk hh.symm), hia] at hia'
          exact Bool.noConfusion hia'
    · exfalso
      push_neg at hact_op
      have hpres := applyOp_preserves_isActive s op pk u u' hact_op hu hu'
      rw [hia] at hpres
      rw [hpres] at hia'
      exact Bool.noConfusion hia'
  · intro a b hne
    simp only [checkToken, makeToken, decide_eq_false_iff_not]
    intro h
    exact hne (congrArg Token.pk h)

/-- The user row created by the sample signup of `dave` against `regState`. -/
def daveUser : SysUser :=
  { pk := 4, username := "dave", email := "dave@example.com", password := "davepw"
  , lastLogin := none, isSuperuser := false, isActive := false, groups := [] }

/-- `alice` after activation. -/
def aliceActive : SysUser :=
  { pk := 3, username := "alice", email := "alice@example.com", password := "alicepw"
  , lastLogin := none, isSuperuser := false, isActive := true, groups := [] }

/-- C3 witness: `dave` registers inactive; the flip of `alice`'s flag was an
activation with her own token; `alice`'s token does not check out against
`carol`. -/
theorem registered_inactive_until_activate_witness :
    daveUser.isActive = false ∧
    (∃ uidb64 t, Op.opActivate "3" tokA = Op.opActivate uidb64 t ∧
      uidDecode uidb64 = some 3 ∧ checkToken sampleUserA t = true) ∧
    checkToken samplePlain (makeToken sampleUserA) = false := by
  refine ⟨?_, ?_, ?_⟩
  · exact registered_inactive_until_activate.1 regState "dave" "dave@example.com" "davepw"
      "example.com" daveUser (by decide) (by decide)
  · exact registered_inactive_until_activate.2.1 regState (Op.opActivate "3" tokA) 3
      sampleUserA aliceActive (by decide) (by decide) (by decide) (by decide)
  · exact registered_inactive_until_activate.2.2 sampleUserA samplePlain (by decide)

theorem le_foldr_max (l : List Nat) (a : Nat) (h : a ∈ l) : a ≤ l.foldr max 0 := by
  induction l with
  | nil => cases h
  | cons x l ih =>
    rcases List.mem_cons.mp h with h | h
    · subst h
      exact le_max_left _ _
    · exact le_trans (ih h) (le_max_right _ _)

theorem freshPk_not_mem (s : SysState) : freshPk s ∉ s.users.map SysUser.pk := by
  intro h
  have hle := le_foldr_max (s.users.map SysUser.pk) (freshPk s) h
  unfold freshPk at hle
  omega

theorem roleGroupCount_singleton (g : String) : roleGroupCount [g] ≤ 1 := by
  rcases eq_or_ne g "Admin" with h | hA
  · subst h; decide
  rcases eq_or_ne g "Organizer" with h | hO
  · subst h; decide
  rcases eq_or_ne g "Participant" with h | hP
  · subst h; decide
  rw [roleGroupCount_eq]
  simp [List.mem_singleton, Ne.symm hA, Ne.symm hO, Ne.symm hP]

theorem eq_of_mem_pk (s : SysState) (hnd : (s.users.map SysUser.pk).Nodup)
    {v w : SysUser} (hv : v ∈ s.users) (hw : w ∈ s.users) (hpk : v.pk = w.pk) : v = w :=
  List.inj_on_of_nodup_map hnd hv hw hpk

theorem SysInv_of_users_eq (s' s : SysState) (h : s'.users = s.users) (hs : SysInv s) :
    SysInv s' := by
  constructor
  · rw [h]
    exact hs.1
  · intro u hu
    rw [h] at hu
    exact hs.2 u hu

/-- `updateUser` keeps the invariant when the update preserves pks and sends
invariant rows with the edited pk to invariant rows. -/
theorem sysInv_updateUser (s : SysState) (pk' : Nat) (f : SysUser → SysUser)
    (hpk : ∀ v, (f v).pk = v.pk)
    (hinv : ∀ v ∈ s.users, v.pk = pk' → sysInvUser v → sysInvUser (f v))
    (h : SysInv s) : SysInv (updateUser s pk' f) := by
  have hmapeq : (updateUser s pk' f).users.map SysUser.pk = s.users.map SysUser.pk := by
    unfold updateUser
    rw [List.map_map]
    apply List.map_congr_left
    intro a _
    by_cases hq : a.pk = pk' <;> simp [Function.comp, hq, hpk]
  constructor
  · rw [hmapeq]
    exact h.1
  · intro u hu
    unfold updateUser at hu
    rcases List.mem_map.mp hu with ⟨w, hw, hwe⟩
    by_cases hq : w.pk = pk'
    · rw [if_pos hq] at hwe
      rw [← hwe]
      exact hinv w hw hq (h.2 w hw)
    · rw [if_neg hq] at hwe
      rw [← hwe]
      exact h.2 w hw

theorem sysInv_signUp (s : SysState) (un em pw dom : String) (h : SysInv s) :
    SysInv (signUpView s un em pw dom).1 := by
  unfold signUpView
  split
  · exact h
  · constructor
    · rw [List.map_append, List.nodup_append]
      refine ⟨h.1, List.nodup_singleton _, ?_⟩
      intro x hx hx'
      simp only [List.map_cons, List.map_nil, List.mem_singleton] at hx'
      subst hx'
      exact freshPk_not_mem s hx
    · intro u hu
      rcases List.mem_append.mp hu with h' | h'
      · exact h.2 u h'
      · rw [List.mem_singleton] at h'
        subst h'
        exact ⟨(by decide : roleGroupCount ([] : List String) ≤ 1),
          fun _ => (by simp : "Admin" ∉ ([] : List String))⟩

theorem sysInv_login (s : SysState) (un pw : String) (now : Nat) (h : SysInv s) :
    SysInv (login_view s un pw now).1 := by
  cases hauth : authenticate s un pw with
  | none =>
    rw [login_view_eq_none s un pw now hauth]
    exact h
  | some w =>
    have hwmem : w ∈ s.users := by
      unfold authenticate at hauth
      exact List.mem_of_find?_eq_some hauth
    by_cases hwact : w.isActive = true
    · by_cases hwsup : w.isSuperuser = true
      · rw [login_view_eq_super s un pw now w hauth hwact hwsup]
        apply sysInv_updateUser
        · exact fun v => rfl
        · intro v hv hvpk _
          have hvw : v = w := eq_of_mem_pk s h.1 hv hwmem hvpk
          subst hvw
          refine ⟨(by decide : roleGroupCount (m2mAdd ([] : List String) "Admin") ≤ 1),
            fun hff => ?_⟩
          rw [show (({ v with groups := m2mAdd ([] : List String) "Admin", lastLogin := some now } : SysUser)).isSuperuser = v.isSuperuser from rfl,
            hwsup] at hff
          exact Bool.noConfusion hff
        · exact SysInv_of_users_eq _ s rfl h
      · have hsup' : w.isSuperuser = false := by
          rwa [Bool.not_eq_true] at hwsup
        rw [login_view_eq_nonsuper s un pw now w hauth hwact hsup']
        apply sysInv_updateUser
        · exact fun v => rfl
        · intro v _ _ hvinv
          exact hvinv
        · by_cases hc : (is_organizer w || is_participant w) = true
          · rw [if_pos hc]
            exact h
          · rw [if_neg hc]
            have hc' : is_organizer w = false ∧ is_participant w = false := by
              rw [Bool.not_eq_true, Bool.or_eq_false_iff] at hc
              exact hc
            have hOrg : "Organizer" ∉ w.groups := by
              have := hc'.1
              simp only [is_organizer, decide_eq_false_iff_not] at this
              exact this
            have hPart : "Participant" ∉ w.groups := by
              have := hc'.2
              simp only [is_participant, decide_eq_false_iff_not] at this
              exact this
            apply sysInv_updateUser
            · exact fun v => rfl
            · intro v hv hvpk hvinv
              have hvw : v = w := eq_of_mem_pk s h.1 hv hwmem hvpk
              subst hvw
              have hAdm : "Admin" ∉ v.groups := hvinv.2 hsup'
              constructor
              · show roleGroupCount (m2mAdd v.groups "Participant") ≤ 1
                rw [m2mAdd_of_not_mem v.groups "Participant" hPart, roleGroupCount_eq]
                simp [List.mem_append, hAdm, hOrg, hPart]
              · intro _
                show "Admin" ∉ m2mAdd v.groups "Participant"
                rw [m2mAdd_of_not_mem v.groups "Participant" hPart]
                intro hmem
                rcases List.mem_append.mp hmem with hm | hm
                · exact hAdm hm
                · rw [List.mem_singleton] at hm
                  simp at hm
            · exact SysInv_of_users_eq _ s rfl h
    · have hwact' : w.isActive = false := by
        rwa [Bool.not_eq_true] at hwact
      rw [login_view_eq_inactive s un pw now w hauth hwact']
      exact h

theorem sysInv_changeRole (s : SysState) (a tId : Nat) (r : String) (h : SysInv s) :
    SysInv (change_user_role s a tId r).1 := by
  by_cases hA : actorAdmin s a = true
  · cases hF : findUser s tId with
    | none =>
      rw [change_user_role_eq_not_found s a tId r hA hF]
      exact h
    | some u =>
      by_cases hr : pyLower r ∉ ["organizer", "participant"]
      · rw [change_user_role_eq_invalid s a tId r u hA hF hr]
        exact h
      · by_cases hself : u.pk = a
        · rw [change_user_role_eq_self s a tId r u hA hF (not_not.mp hr) hself]
          exact h
        · rw [change_user_role_eq_ok s a tId r u hA hF (not_not.mp hr) hself]
          apply sysInv_updateUser
          · exact fun v => rfl
          · intro v _ _ _
            constructor
            · exact roleGroupCount_singleton (pyCapitalize r)
            · intro _
              intro hmem
              rw [show (({ v with groups := [pyCapitalize r] } : SysUser)).groups
                  = [pyCapitalize r] from rfl, List.mem_singleton] at hmem
              exact validRole_ne_admin r (not_not.mp hr) hmem.symm
          · exact SysInv_of_users_eq _ s rfl h
  · have hA' : actorAdmin s a = false := by
      rwa [Bool.not_eq_true] at hA
    rw [change_user_role_eq_not_admin s a tId r hA']
    exact h

theorem sysInv_activate (s : SysState) (uidb64 : String) (t : Token) (h : SysInv s) :
    SysInv (activate_account s uidb64 t).1 := by
  cases hres : (activate_account s uidb64 t).2 with
  | invalid =>
    rw [activate_invalid_state s uidb64 t hres]
    exact h
  | success pk' =>
    obtain ⟨_, _, _, _, hstate⟩ := activate_success_shape s uidb64 t pk' hres
    rw [hstate]
    apply sysInv_updateUser
    · exact fun v => rfl
    · intro v _ _ hvinv
      exact hvinv
    · exact h

theorem sysInv_deleteUser (s : SysState) (a t : Nat) (h : SysInv s) :
    SysInv (user_delete_view s a t) := by
  rcases user_delete_view_state s a t with hst | hst
  · rw [hst]
    exact h
  · rw [hst]
    constructor
    · exact ((List.filter_sublist s.users).map SysUser.pk).nodup h.1
    · intro u hu
      have : u ∈ s.users := (List.mem_filter.mp hu).1
      exact h.2 u this

theorem sysInv_applyOp (s : SysState) (op : Op) (h : SysInv s) : SysInv (applyOp s op) := by
  cases op with
  | opSignUp un em pw dom => exact sysInv_signUp s un em pw dom h
  | opLogin un pw now => exact sysInv_login s un pw now h
  | opChangeRole a t r => exact sysInv_changeRole s a t r h
  | opActivate uidb64 t => exact sysInv_activate s uidb64 t h
  | opRsvp a e => exact SysInv_of_users_eq _ s (rsvp_event_users s a e) h
  | opCreateEvent f => exact SysInv_of_users_eq _ s (event_create_view_users s f) h
  | opDeleteUser a t => exact sysInv_deleteUser s a t h

theorem sysInv_applyOps (s : SysState) (ops : List Op) (h : SysInv s) :
    SysInv (applyOps s ops) := by
  induction ops generalizing s with
  | nil => exact h
  | cons op ops ih => exact ih (applyOp s op) (sysInv_applyOp s op h)

/-- C1: starting from any datastore satisfying the system invariant — which
holds in particular for every datastore whose users were created by the
system itself, with empty group lists — any sequence of the application's
own operations (logins, role changes, signups, activations, RSVPs, event
creation, user deletion) leaves every user in at most one of the three
canonical role groups. -/
theorem role_groups_exclusive (s : SysState) (hs : SysInv s) (ops : List Op) :
    ∀ u ∈ (applyOps s ops).users, roleGroupCount u.groups ≤ 1 :=
  fun u hu => ((sysInv_applyOps s ops hs).2 u hu).1

/-- C1 witness: the sample history (superuser login, `carol`'s default
login, two role changes, an RSVP and a signup) keeps `olly` in at most one
role group. -/
theorem role_groups_exclusive_witness :
    roleGroupCount (((findUser (applyOps sampleState demoOps) 2).getD sampleAdmin).groups)
      ≤ 1 := by
  apply role_groups_exclusive sampleState (by decide) demoOps
  decide

end EventApp
